import Mathlib

/-!
Shallow embedding of the entity-resolution / merge engine of
`src/integrate_pipeline.py` (davidp209/books-pipeline), together with proofs
of the testable properties stated in the repository's specification.

Modelling conventions:
* Python's dynamically typed field values are the inductive type `Val`
  (`None`, `str`, `int`, non-NaN `float`, `float('nan')`, `list`).
  Python floats are represented by exact rationals; binary floating point
  rounding plays no role in any property proved here.
* String routines (`strip`, `lower`, `upper`, `isdigit`, the regexes
  `\s+`, `[^\w\s]`, `[|,;]`, `^(\d{4})...`) are modelled over their ASCII
  behaviour, which is the behaviour the engine's data exercises.
* `dateutil.parser.parse(s, default=datetime(1,1,1))` (the repository imports
  `dateutil` when available and the spec describes that path) is modelled on
  the numeric shapes `YYYY`, `YYYY-M`, `YYYY-M-D`; every other shape is
  treated as a parse failure, which routes `iso_date` to its regex fallback
  exactly as in the source.
* Python's `float(...)` string parser is modelled for decimal literals with
  optional sign, fraction and exponent; the special spellings
  `inf` / `nan` / underscore separators are treated as parse failures.
* Dictionaries are modelled by their lookup function: plain assignment
  `d[k] = v` overwrites, `d.setdefault(k, v)` keeps the first binding; the
  pipeline never iterates over a dict, so lookup semantics are all that is
  observable.
-/

/-- Worker for `mkDec`: divide out factors of ten while the exponent is
positive; the fuel starts at the exponent, which bounds the iterations. -/
def decCanonAux : Nat → Int → Nat → Int × Nat
  | 0, m, e => (m, e)
  | fuel + 1, m, e =>
    if e = 0 then (m, 0)
    else if m % 10 = 0 then decCanonAux fuel (m / 10) (e - 1)
    else (m, e)

/-- An exact Python float value `man / 10 ^ exp`. Every constructor in this
development goes through `mkDec`, so representations are canonical (no
trailing ten factor, zero is `(0, 0)`) and structural equality is value
equality. Binary floating point rounding is outside the model's scope. -/
structure Dec where
  man : Int
  exp : Nat
deriving DecidableEq

/-- Canonicalising constructor for `Dec`. -/
def mkDec (m : Int) (e : Nat) : Dec :=
  let p := decCanonAux e m e
  { man := p.1, exp := p.2 }

mutual
/-- A Python value as it occurs in the pipeline's records: `None`, a string,
an int, a (non-NaN) float modelled as an exact rational, `float('nan')`,
or a list. -/
inductive Val where
  | pnone : Val
  | pstr (s : String) : Val
  | pint (n : Int) : Val
  | pfloat (q : Dec) : Val
  | pnan : Val
  | plist (xs : ValList) : Val

/-- A Python list of values; a dedicated mutual type keeps every recursion
over values structural. -/
inductive ValList where
  | nil : ValList
  | cons (hd : Val) (tl : ValList) : ValList
end

/-- Convert a modelled Python list to an ordinary Lean list. -/
def ValList.toList : ValList → List Val
  | .nil => []
  | .cons a tl => a :: tl.toList

/-- Build a modelled Python list from a Lean list. -/
def Val.vlist (l : List Val) : Val := .plist (l.foldr ValList.cons .nil)

mutual
/-- Boolean equality on `Val`. -/
def Val.beq : Val → Val → Bool
  | .pnone, .pnone => true
  | .pstr a, .pstr b => a == b
  | .pint a, .pint b => a == b
  | .pfloat a, .pfloat b => a == b
  | .pnan, .pnan => true
  | .plist a, .plist b => Val.beqList a b
  | _, _ => false

/-- Boolean equality on value lists. -/
def Val.beqList : ValList → ValList → Bool
  | .nil, .nil => true
  | .cons a as, .cons b bs => Val.beq a b && Val.beqList as bs
  | _, _ => false
end

mutual
theorem Val.eq_of_beq : ∀ {a b : Val}, Val.beq a b = true → a = b
  | .pnone, .pnone, _ => rfl
  | .pstr a, .pstr b, h => by simpa [Val.beq] using h
  | .pint a, .pint b, h => by simpa [Val.beq] using h
  | .pfloat a, .pfloat b, h => by simpa [Val.beq] using h
  | .pnan, .pnan, _ => rfl
  | .plist a, .plist b, h => by
    rw [Val.eqList_of_beqList (a := a) (b := b) (by simpa [Val.beq] using h)]

theorem Val.eqList_of_beqList : ∀ {a b : ValList}, Val.beqList a b = true → a = b
  | .nil, .nil, _ => rfl
  | .cons a as, .cons b bs, h => by
    have h' := h
    simp only [Val.beqList, Bool.and_eq_true] at h'
    rw [Val.eq_of_beq h'.1, Val.eqList_of_beqList h'.2]
end

mutual
theorem Val.beq_refl : ∀ a : Val, Val.beq a a = true
  | .pnone => rfl
  | .pstr a => by simp [Val.beq]
  | .pint a => by simp [Val.beq]
  | .pfloat a => by simp [Val.beq]
  | .pnan => rfl
  | .plist a => by simpa [Val.beq] using Val.beqList_refl a

theorem Val.beqList_refl : ∀ a : ValList, Val.beqList a a = true
  | .nil => rfl
  | .cons a as => by
    simp only [Val.beqList, Bool.and_eq_true]
    exact ⟨Val.beq_refl a, Val.beqList_refl as⟩
end

instance : DecidableEq Val := fun a b =>
  if h : Val.beq a b = true then .isTrue (Val.eq_of_beq h)
  else .isFalse (fun he => h (he ▸ Val.beq_refl a))

/-- Python truthiness: `None`, `""`, `0`, `0.0` and `[]` are falsy;
note that `float('nan')` is truthy. -/
def Val.truthy : Val → Bool
  | .pnone => false
  | .pstr s => s ≠ ""
  | .pint n => n ≠ 0
  | .pfloat q => q.man ≠ 0
  | .pnan => true
  | .plist xs => match xs with | .nil => false | _ => true

/-- Python's `isinstance(v, float)` (NaN is a float). -/
def Val.isFloat : Val → Bool
  | .pfloat _ => true
  | .pnan => true
  | _ => false

/-- Python's `or` on two values: the first if truthy, else the second. -/
def pyOr (a b : Val) : Val := if a.truthy then a else b

/-- The six ASCII whitespace characters recognised by `str.strip` and
the regex class `\s`. -/
def isPySpace (c : Char) : Bool :=
  c = ' ' || c = '\t' || c = '\n' || c = '\r' || c = Char.ofNat 11 || c = Char.ofNat 12

/-- Python `str.strip()` on the character list. -/
def pyStripChars (l : List Char) : List Char :=
  ((l.dropWhile isPySpace).reverse.dropWhile isPySpace).reverse

/-- Python `str.strip()`. -/
def pyStrip (s : String) : String := String.mk (pyStripChars s.data)

/-- Worker for `collapseWsChars`; the fuel is an upper bound on the input
length, so the zero case is never reached from `collapseWsChars`. -/
def collapseWsAux : Nat → List Char → List Char
  | 0, _ => []
  | _ + 1, [] => []
  | fuel + 1, c :: cs =>
    if isPySpace c then ' ' :: collapseWsAux fuel (cs.dropWhile isPySpace)
    else c :: collapseWsAux fuel cs

/-- The regex substitution `re.sub(r"\s+", " ", _)`: each maximal run of
whitespace becomes a single space. -/
def collapseWsChars (l : List Char) : List Char := collapseWsAux l.length l

/-- String form of `collapseWsChars`. -/
def collapseWs (s : String) : String := String.mk (collapseWsChars s.data)

/-- Python `str.lower()` (ASCII behaviour). -/
def pyLower (s : String) : String := String.mk (s.data.map Char.toLower)

/-- Python `str.upper()` (ASCII behaviour). -/
def pyUpper (s : String) : String := String.mk (s.data.map Char.toUpper)

/-- Python `str.isdigit()` (ASCII behaviour): nonempty and all digits. -/
def pyIsDigit (s : String) : Bool := s.data ≠ [] && s.data.all (·.isDigit)

/-- Python `repr`/`str` of a float: integral values print as `5.0`, other
values with their exact decimal expansion. -/
def floatRepr (q : Dec) : String :=
  if q.exp = 0 then toString q.man ++ ".0"
  else
    let ds := toString q.man.natAbs
    let ds := if ds.length ≤ q.exp then
      String.mk (List.replicate (q.exp + 1 - ds.length) '0') ++ ds else ds
    let ip := String.mk (ds.data.take (ds.length - q.exp))
    let fp := String.mk (ds.data.drop (ds.length - q.exp))
    (if q.man < 0 then "-" else "") ++ ip ++ "." ++ fp

mutual
/-- Python `str(v)`. -/
def pyStr : Val → String
  | .pnone => "None"
  | .pstr s => s
  | .pint n => toString n
  | .pfloat q => floatRepr q
  | .pnan => "nan"
  | .plist xs => "[" ++ pyReprList xs ++ "]"

/-- Python `repr` of the elements of a list, comma separated (strings get
quoted). -/
def pyReprList : ValList → String
  | .nil => ""
  | .cons x .nil => pyRepr x
  | .cons x (.cons y tl) => pyRepr x ++ ", " ++ pyReprList (.cons y tl)

/-- Python `repr(v)`; differs from `str` only on strings. -/
def pyRepr : Val → String
  | .pstr s => String.singleton (Char.ofNat 39) ++ s ++ String.singleton (Char.ofNat 39)
  | .pnone => "None"
  | .pint n => toString n
  | .pfloat q => floatRepr q
  | .pnan => "nan"
  | .plist xs => "[" ++ pyReprList xs ++ "]"
end

/-- Split a character list at each delimiter character, keeping empty
pieces, as `re.split` with a character class does. -/
def splitChars (p : Char → Bool) (l : List Char) : List (List Char) :=
  l.foldr
    (fun c acc =>
      match acc with
      | cur :: rest => if p c then [] :: cur :: rest else (c :: cur) :: rest
      | [] => [[c]])
    [[]]

/-- String form of `splitChars`. -/
def pySplit (s : String) (p : Char → Bool) : List String :=
  (splitChars p s.data).map String.mk

/-- Truthiness of a Python `Optional[str]`: `None` and `""` are falsy. -/
def optSTruthy : Option String → Bool
  | some s => s ≠ ""
  | none => false

/-- Inject an `Optional[str]` back into the value universe. -/
def oToVal : Option String → Val
  | some s => .pstr s
  | none => .pnone

/-- Inject an `Optional[float]` back into the value universe. -/
def oQToVal : Option Dec → Val
  | some q => .pfloat q
  | none => .pnone

/-- Keep an `Optional[str]` only when truthy (the `if normalize_str(p)`
guards of the list comprehensions). -/
def keepTruthy (o : Option String) : Option String :=
  match o with
  | some s => if s = "" then none else some s
  | none => none

/-- Body of `normalize_str` on the string `str(val)`: `None` for
empty/"nan" after stripping; drops a trailing `.0` from digit strings;
collapses internal whitespace. -/
def normalize_str_core (t : String) : Option String :=
  let s := pyStrip t
  if s = "" || pyLower s = "nan" then none
  else
    let s :=
      match s.data.reverse with
      | '0' :: '.' :: rest =>
        if pyIsDigit (String.mk rest.reverse) then String.mk rest.reverse else s
      | _ => s
    some (collapseWs s)

/-- Source `normalize_str`: `None` for null input, else `normalize_str_core`
applied to `str(val)`. -/
def normalize_str (val : Val) : Option String :=
  match val with
  | .pnone => none
  | v => normalize_str_core (pyStr v)

/-- The regex class `\w` (ASCII): alphanumeric or underscore. -/
def isWordChar (c : Char) : Bool := c.isAlphanum || c = '_'

/-- Source `normalize_title`: `normalize_str`, lower-cased, punctuation
stripped (`[^\w\s]` removed), whitespace collapsed and stripped. -/
def normalize_title (title : Val) : Option String :=
  match normalize_str title with
  | none => none
  | some t =>
    if t = "" then none
    else
      let t := pyLower t
      let t := String.mk (t.data.filter (fun c => isWordChar c || isPySpace c))
      some (pyStrip (collapseWs t))

/-- The author-splitting regex class `[|,;]`. -/
def isAuthorDelim (c : Char) : Bool := c = '|' || c = ',' || c = ';'

/-- Source `normalize_author`: falsy or float input gives `[]`; a string is
split on `|`, `,`, `;`; a list is taken as is; entries are normalised and
falsy ones dropped. -/
def normalize_author (auth : Val) : List String :=
  if !auth.truthy || auth.isFloat then []
  else
    match auth with
    | .pstr s => (pySplit s isAuthorDelim).filterMap (fun p => keepTruthy (normalize_str (.pstr p)))
    | .plist xs => xs.toList.filterMap (fun p => keepTruthy (normalize_str p))
    | _ => []

/-- Source `normalize_categories`: a list is trimmed element-wise keeping
truthy entries; a string splits on `|` when one is present, else is a
singleton of its trimmed self (which may be empty). -/
def normalize_categories (val : Val) : List String :=
  if !val.truthy || val.isFloat then []
  else
    match val with
    | .plist xs =>
      xs.toList.filterMap (fun x =>
        if x.truthy && pyStrip (pyStr x) ≠ "" then some (pyStrip (pyStr x)) else none)
    | v =>
      let s := pyStr v
      if s.data.contains '|' then
        (pySplit s (· = '|')).filterMap (fun x => if pyStrip x ≠ "" then some (pyStrip x) else none)
      else [pyStrip s]

/-- Source `get_first_author`: head of the normalised author list, or `""`. -/
def get_first_author (auth : Val) : String := (normalize_author auth).headD ""

/-- Numeric value of a list of decimal digit characters. -/
def digitsVal (l : List Char) : Nat := l.foldl (fun a c => 10 * a + (c.toNat - 48)) 0

/-- Days in a Gregorian month, used to validate modelled dateutil parses. -/
def daysInMonth (y m : Nat) : Nat :=
  if m = 2 then (if y % 4 = 0 && (y % 100 ≠ 0 || y % 400 = 0) then 29 else 28)
  else if m = 4 || m = 6 || m = 9 || m = 11 then 30 else 31

/-- Modelled `dateutil.parser.parse(s, default=datetime(1,1,1))` returning
(year, month, day) with the default filling missing components. Covers the
numeric shapes `YYYY`, `YYYY-M`, `YYYY-M-D`; any other input is treated as a
parse failure, routing `iso_date` to its regex fallback as in the source. -/
def dateutilParse (s : String) : Option (Nat × Nat × Nat) :=
  match (pySplit s (· = '-')).map (·.data) with
  | [y] =>
    if y.length = 4 && y.all (·.isDigit) && digitsVal y ≥ 1 then some (digitsVal y, 1, 1)
    else none
  | [y, m] =>
    if y.length = 4 && y.all (·.isDigit) && digitsVal y ≥ 1 &&
       1 ≤ m.length && m.length ≤ 2 && m.all (·.isDigit) &&
       1 ≤ digitsVal m && digitsVal m ≤ 12 then
      some (digitsVal y, digitsVal m, 1)
    else none
  | [y, m, d] =>
    if y.length = 4 && y.all (·.isDigit) && digitsVal y ≥ 1 &&
       1 ≤ m.length && m.length ≤ 2 && m.all (·.isDigit) &&
       1 ≤ digitsVal m && digitsVal m ≤ 12 &&
       1 ≤ d.length && d.length ≤ 2 && d.all (·.isDigit) &&
       1 ≤ digitsVal d && digitsVal d ≤ daysInMonth (digitsVal y) (digitsVal m) then
      some (digitsVal y, digitsVal m, digitsVal d)
    else none
  | _ => none

/-- Python `f"{n:02d}"` for the non-negative components used here. -/
def pad2 (n : Nat) : String := if n < 10 then "0" ++ toString n else toString n

/-- Python `f"{n:04d}"` for non-negative `n`. -/
def pad4 (n : Nat) : String :=
  let s := toString n
  String.mk (List.replicate (4 - s.length) '0') ++ s

/-- Exactly four leading decimal digits, with the remainder (the regex
group `(\d{4})`). -/
def takeDigits4 : List Char → Option (List Char × List Char)
  | a :: b :: c :: d :: rest =>
    if a.isDigit && b.isDigit && c.isDigit && d.isDigit then some ([a, b, c, d], rest) else none
  | _ => none

/-- Greedy `(\d{1,2})` with no requirement on what follows. -/
def grab12 : List Char → Option (Nat × List Char)
  | a :: b :: rest =>
    if a.isDigit then
      (if b.isDigit then some (digitsVal [a, b], rest) else some (digitsVal [a], b :: rest))
    else none
  | [a] => if a.isDigit then some (digitsVal [a], []) else none
  | [] => none

/-- Greedy `(\d{1,2})-` with the backtracking a regex engine performs. -/
def grab12Dash : List Char → Option (Nat × List Char)
  | a :: b :: c :: rest =>
    if a.isDigit && b.isDigit && c = '-' then some (digitsVal [a, b], rest)
    else if a.isDigit && b = '-' then some (digitsVal [a], c :: rest)
    else none
  | [a, b] => if a.isDigit && b = '-' then some (digitsVal [a], []) else none
  | _ => none

/-- The regex fallback chain of `iso_date`: `^(\d{4})-(\d{1,2})-(\d{1,2})`,
then `^(\d{4})-(\d{1,2})`, then `^(\d{4})` (all prefix matches). -/
def isoRegexFallback (s : String) : Option String :=
  match takeDigits4 s.data with
  | none => none
  | some (y4, rest) =>
    let g1 := String.mk y4
    match rest with
    | '-' :: r2 =>
      (match grab12Dash r2 with
       | some (m, r3) =>
         (match grab12 r3 with
          | some (d, _) => some (g1 ++ "-" ++ pad2 m ++ "-" ++ pad2 d)
          | none =>
            match grab12 r2 with
            | some (m2, _) => some (g1 ++ "-" ++ pad2 m2)
            | none => some g1)
       | none =>
         match grab12 r2 with
         | some (m2, _) => some (g1 ++ "-" ++ pad2 m2)
         | none => some g1)
    | _ => some g1

/-- Source `iso_date`: falsy/float input gives null; otherwise dateutil
parsing with the day-then-month placeholder precision rule, falling back
to the regex chain, and finally null. -/
def iso_date (val : Val) : Option String :=
  if !val.truthy || val.isFloat then none
  else
    let s := pyStrip (pyStr val)
    if s = "" || pyLower s = "nan" then none
    else
      match dateutilParse s with
      | some (y, m, d) =>
        if d ≠ 1 then some (pad4 y ++ "-" ++ pad2 m ++ "-" ++ pad2 d)
        else if m ≠ 1 then some (pad4 y ++ "-" ++ pad2 m)
        else some (pad4 y)
      | none => isoRegexFallback s

/-- Source `normalize_currency`: falsy/float gives null; else strip, upper,
map the three currency symbols, otherwise truncate to three characters. -/
def normalize_currency (curr : Val) : Option String :=
  if !curr.truthy || curr.isFloat then none
  else
    let s := pyUpper (pyStrip (pyStr curr))
    if s = "€" then some "EUR"
    else if s = "$" then some "USD"
    else if s = "£" then some "GBP"
    else some (String.mk (s.data.take 3))

/-- Exponent suffix of a Python float literal: empty, or `e`/`E` with an
optional sign and at least one digit, applied to a mantissa/exponent pair. -/
def parseExpSuffix : List Char → Int → Nat → Option Dec
  | [], m, e => some (mkDec m e)
  | c :: r, m, e =>
    if c = 'e' || c = 'E' then
      let p : Bool × List Char :=
        match r with
        | '+' :: r' => (false, r')
        | '-' :: r' => (true, r')
        | r' => (false, r')
      let ds := p.2.takeWhile (·.isDigit)
      if ds.isEmpty || ¬ (p.2.dropWhile (·.isDigit)).isEmpty then none
      else
        let k := digitsVal ds
        if p.1 then some (mkDec m (e + k))
        else if k ≤ e then some (mkDec m (e - k))
        else some (mkDec (m * (10 : Int) ^ (k - e)) 0)
    else none

/-- Unsigned part of a Python float literal: `digits[.digits]` or
`.digits`, followed by an optional exponent. -/
def parseFloatCore (l : List Char) : Option Dec :=
  let intD := l.takeWhile (·.isDigit)
  let rest := l.dropWhile (·.isDigit)
  match rest with
  | '.' :: r2 =>
    let fracD := r2.takeWhile (·.isDigit)
    let r3 := r2.dropWhile (·.isDigit)
    if intD.isEmpty && fracD.isEmpty then none
    else parseExpSuffix r3
      ((digitsVal intD * 10 ^ fracD.length + digitsVal fracD : Nat) : Int) fracD.length
  | _ => if intD.isEmpty then none else parseExpSuffix rest ((digitsVal intD : Nat) : Int) 0

/-- Modelled Python `float(str)`: surrounding whitespace, optional sign,
decimal literal with optional fraction and exponent. The spellings
`inf`, `nan` and underscore separators are treated as parse failures. -/
def pyFloatParse (s : String) : Option Dec :=
  match pyStripChars s.data with
  | '+' :: r => parseFloatCore r
  | '-' :: r => (parseFloatCore r).map (fun d => { man := -d.man, exp := d.exp })
  | l => parseFloatCore l

/-- Python `str.replace(",", ".")`. -/
def replaceCommaDot (s : String) : String :=
  String.mk (s.data.map (fun c => if c = ',' then '.' else c))

/-- Source `safe_decimal`: `None` for null; floats pass through (NaN to
null); otherwise `float(str(v).replace(",", "."))` with failure as null. -/
def safe_decimal (v : Val) : Option Dec :=
  match v with
  | .pnone => none
  | .pfloat q => some q
  | .pnan => none
  | v' => pyFloatParse (replaceCommaDot (pyStr v'))

/-- Two to the thirty-second power, the word modulus of SHA-1. -/
def M32 : Nat := 4294967296

/-- Left rotation of a 32-bit word expressed arithmetically. -/
def rotl (s n : Nat) : Nat := (n * 2 ^ s + n / 2 ^ (32 - s)) % M32

/-- UTF-8 encoding of one character. -/
def utf8Char (c : Char) : List Nat :=
  let n := c.toNat
  if n < 128 then [n]
  else if n < 2048 then [192 + n / 64, 128 + n % 64]
  else if n < 65536 then [224 + n / 4096, 128 + n / 64 % 64, 128 + n % 64]
  else [240 + n / 262144, 128 + n / 4096 % 64, 128 + n / 64 % 64, 128 + n % 64]

/-- UTF-8 encoding of a string as a byte list. -/
def utf8Bytes (s : String) : List Nat := (s.data.map utf8Char).flatten

/-- Big-endian eight-byte encoding of a natural number. -/
def be8 (n : Nat) : List Nat :=
  [n / 2 ^ 56 % 256, n / 2 ^ 48 % 256, n / 2 ^ 40 % 256, n / 2 ^ 32 % 256,
   n / 2 ^ 24 % 256, n / 2 ^ 16 % 256, n / 2 ^ 8 % 256, n % 256]

/-- SHA-1 message padding: `0x80`, zeros to 56 mod 64, 64-bit bit length. -/
def sha1Pad (msg : List Nat) : List Nat :=
  msg ++ 128 :: List.replicate ((119 - msg.length % 64) % 64) 0 ++ be8 (8 * msg.length)

/-- Worker for `chunks64`; the fuel is an upper bound on the number of
blocks, so the zero case is never reached from `chunks64`. -/
def chunks64Aux : Nat → List Nat → List (List Nat)
  | 0, _ => []
  | _ + 1, [] => []
  | fuel + 1, l@(_ :: _) => l.take 64 :: chunks64Aux fuel (l.drop 64)

/-- Split a byte list into 64-byte blocks. -/
def chunks64 (l : List Nat) : List (List Nat) := chunks64Aux l.length l

/-- Big-endian 32-bit words of a block. -/
def wordsOf : List Nat → List Nat
  | b0 :: b1 :: b2 :: b3 :: rest =>
    (b0 * 16777216 + b1 * 65536 + b2 * 256 + b3) :: wordsOf rest
  | _ => []

/-- The 80-word SHA-1 message schedule of one block. -/
def sha1W (block : List Nat) : Array Nat :=
  (List.range 64).foldl
    (fun a _ =>
      let i := a.size
      a.push (rotl 1 ((a.getD (i - 3) 0) ^^^ (a.getD (i - 8) 0) ^^^
                      (a.getD (i - 14) 0) ^^^ (a.getD (i - 16) 0))))
    (wordsOf block).toArray

/-- The SHA-1 round function. -/
def sha1F (i b c d : Nat) : Nat :=
  if i < 20 then (b &&& c) ||| ((M32 - 1 - b) &&& d)
  else if i < 40 then b ^^^ c ^^^ d
  else if i < 60 then (b &&& c) ||| (b &&& d) ||| (c &&& d)
  else b ^^^ c ^^^ d

/-- The SHA-1 round constants. -/
def sha1K (i : Nat) : Nat :=
  if i < 20 then 1518500249
  else if i < 40 then 1859775393
  else if i < 60 then 2400959708
  else 3395469782

/-- One SHA-1 block compression. -/
def sha1Compress (h : Nat × Nat × Nat × Nat × Nat) (block : List Nat) :
    Nat × Nat × Nat × Nat × Nat :=
  let w := sha1W block
  let (h0, h1, h2, h3, h4) := h
  let st := (List.range 80).foldl
    (fun (st : Nat × Nat × Nat × Nat × Nat) i =>
      let (a, b, c, d, e) := st
      let t := (rotl 5 a + sha1F i b c d + e + sha1K i + w.getD i 0) % M32
      (t, a, rotl 30 b, c, d))
    (h0, h1, h2, h3, h4)
  let (a, b, c, d, e) := st
  ((h0 + a) % M32, (h1 + b) % M32, (h2 + c) % M32, (h3 + d) % M32, (h4 + e) % M32)

/-- The SHA-1 digest state of a byte message. -/
def sha1Digest (msg : List Nat) : Nat × Nat × Nat × Nat × Nat :=
  (chunks64 (sha1Pad msg)).foldl sha1Compress
    (1732584193, 4023233417, 2562383102, 271733878, 3285377520)

/-- One lowercase hexadecimal digit. -/
def hexChar (n : Nat) : Char := if n < 10 then Char.ofNat (48 + n) else Char.ofNat (87 + n)

/-- Eight hexadecimal digits of a 32-bit word. -/
def hex8 (n : Nat) : List Char :=
  [hexChar (n / 268435456 % 16), hexChar (n / 16777216 % 16), hexChar (n / 1048576 % 16),
   hexChar (n / 65536 % 16), hexChar (n / 4096 % 16), hexChar (n / 256 % 16),
   hexChar (n / 16 % 16), hexChar (n % 16)]

/-- Lowercase hex SHA-1 digest of a byte message, as `hashlib.sha1(_).hexdigest()`. -/
def sha1Hex (msg : List Nat) : String :=
  let (h0, h1, h2, h3, h4) := sha1Digest msg
  String.mk (hex8 h0 ++ hex8 h1 ++ hex8 h2 ++ hex8 h3 ++ hex8 h4)

/-- Source `stable_hash_id`: SHA-1 hex digest of the fields joined with the
separator `||` (the `f or ""` guard in the source is the identity on the
string fields its callers pass). -/
def stable_hash_id (fields : List String) : String :=
  sha1Hex (utf8Bytes (String.intercalate "||" fields))

/-- A primary (goodreads) record: every field the pipeline reads, as a raw
Python value; absent keys are `None` under `dict.get`. -/
structure GoodRecord where
  id : Val := .pnone
  title : Val := .pnone
  authors : Val := .pnone
  isbn : Val := .pnone
  isbn10 : Val := .pnone
  isbn13 : Val := .pnone
  publisher : Val := .pnone
  pub_date : Val := .pnone
  language : Val := .pnone
  categories : Val := .pnone
  desc : Val := .pnone
  num_pages : Val := .pnone
  format : Val := .pnone
  rating_value : Val := .pnone
  rating_count : Val := .pnone
  price_amount : Val := .pnone
  price_currency : Val := .pnone
  url : Val := .pnone
  ingestion_date : Val := .pnone
deriving DecidableEq

/-- A secondary (google) record: every field the pipeline reads. -/
structure GoogleRecord where
  gb_id : Val := .pnone
  title : Val := .pnone
  authors : Val := .pnone
  publisher : Val := .pnone
  pub_date : Val := .pnone
  categories : Val := .pnone
  isbn13 : Val := .pnone
  isbn10 : Val := .pnone
  price_amount : Val := .pnone
  price_currency : Val := .pnone
  pageCount : Val := .pnone
  format : Val := .pnone
  description : Val := .pnone
  language : Val := .pnone
  url : Val := .pnone
  ingestion_date : Val := .pnone
deriving DecidableEq

/-- Access a field of the optional matched record (the source passes
`matched or {}` and guards every access with `if gg`; an absent match and
the empty dict read identically as `None`). -/
def ggGet (gg : Option GoogleRecord) (f : GoogleRecord → Val) : Val :=
  match gg with
  | some r => f r
  | none => .pnone

/-- Source `choose_survivor` with its `prefer` parameter (every call site
uses the default `"goodreads"`): take the non-null side, or either on
trimmed string equality, else the preferred side. -/
def choose_survivor (val_g val_gg : Val) (prefer : String) : Val :=
  if val_g = .pnone then val_gg
  else if val_gg = .pnone then val_g
  else if pyStrip (pyStr val_g) = pyStrip (pyStr val_gg) then val_g
  else if prefer = "goodreads" then val_g else val_gg

/-- The author/category union loop of `merge_records`: normalise each entry
and append it when truthy and unseen. -/
def mergeNormList (xs : List String) : List String :=
  xs.foldl
    (fun acc a =>
      match keepTruthy (normalize_str (.pstr a)) with
      | some n => if acc.contains n then acc else acc ++ [n]
      | none => acc)
    []

/-- Leading `^(\d{4})` of the merged `pub_date`, as an integer. -/
def pubYearOf (pd : Val) : Val :=
  if pd.truthy then
    match takeDigits4 (pyStr pd).data with
    | some (y4, _) => .pint (digitsVal y4)
    | none => .pnone
  else .pnone

/-- The value a truthy Python object contributes to `x or ""`. -/
def valOrEmptyStr (v : Val) : String := if v.truthy then pyStr v else ""

/-- The merged canonical record (the dict literal `merge_records` returns);
`canonical_id` and `source_preference` are always strings in the source. -/
structure Merged where
  canonical_id : String
  isbn13 : Val
  isbn10 : Val
  title : Val
  title_normalized : Val
  authors : Val
  first_author : Val
  publisher : Val
  pub_date : Val
  pub_year : Val
  language : Val
  categories : Val
  num_pages : Val
  format : Val
  description : Val
  rating_value : Val
  rating_count : Val
  price_amount : Val
  price_currency : Val
  source_preference : String
  most_complete_url : Val
  ingestion_date_goodreads : Val
  ingestion_date_google : Val
deriving DecidableEq

/-- Source `merge_records`, line for line. -/
def merge_records (g : GoodRecord) (gg : Option GoogleRecord) : Merged :=
  let t_g := normalize_str g.title
  let t_gg := match gg with | some r => normalize_str r.title | none => none
  let a_g := normalize_author g.authors
  let a_gg := match gg with | some r => normalize_author r.authors | none => []
  let merged_authors := mergeNormList (a_g ++ a_gg)
  let authors_str := if merged_authors ≠ [] then
    Val.pstr (String.intercalate " | " merged_authors) else .pnone
  let first_author := match merged_authors with | a :: _ => Val.pstr a | [] => .pnone
  let cats_g := normalize_categories g.categories
  let cats_gg := normalize_categories (ggGet gg (·.categories))
  let merged_cats := mergeNormList (cats_g ++ cats_gg)
  let categories_str := if merged_cats ≠ [] then
    Val.pstr (String.intercalate " | " merged_cats) else .pnone
  let pub_g := iso_date g.pub_date
  let pub_gg := match gg with | some r => iso_date r.pub_date | none => none
  let pub_date := choose_survivor (oToVal pub_g) (oToVal pub_gg) "goodreads"
  let pub_year := pubYearOf pub_date
  let price_amt := pyOr (oQToVal (safe_decimal (ggGet gg (·.price_amount))))
                        (oQToVal (safe_decimal g.price_amount))
  let price_cur := pyOr (oToVal (normalize_currency (ggGet gg (·.price_currency))))
                        (oToVal (normalize_currency g.price_currency))
  let isbn13 := pyOr (oToVal (normalize_str g.isbn13))
                     (oToVal (match gg with | some r => normalize_str r.isbn13 | none => none))
  let isbn10 := pyOr (oToVal (normalize_str (pyOr g.isbn10 g.isbn)))
                     (oToVal (match gg with | some r => normalize_str r.isbn10 | none => none))
  let title := choose_survivor (oToVal t_g) (oToVal t_gg) "goodreads"
  let publisher := choose_survivor (oToVal (normalize_str g.publisher))
    (oToVal (match gg with | some r => normalize_str r.publisher | none => none)) "goodreads"
  let score_g := [optSTruthy t_g, !a_g.isEmpty, optSTruthy pub_g, g.num_pages.truthy].count true
  let score_gg := [optSTruthy t_gg, !a_gg.isEmpty, optSTruthy pub_gg, price_amt.truthy,
    optSTruthy (match gg with | some r => normalize_str r.isbn13 | none => none)].count true
  let pref := if score_g ≥ score_gg then "goodreads" else "google"
  let url_pref := if score_g ≥ score_gg then g.url
    else (match gg with | some r => r.url | none => g.url)
  let norm_title_hash := normalize_title title
  let cid := if isbn13.truthy then pyStr isbn13
    else stable_hash_id [(norm_title_hash.getD ""), valOrEmptyStr first_author,
      valOrEmptyStr publisher, valOrEmptyStr pub_year]
  { canonical_id := cid
    isbn13 := isbn13
    isbn10 := isbn10
    title := title
    title_normalized := oToVal norm_title_hash
    authors := authors_str
    first_author := first_author
    publisher := publisher
    pub_date := pub_date
    pub_year := pub_year
    language := pyOr g.language (ggGet gg (·.language))
    categories := categories_str
    num_pages := choose_survivor g.num_pages (ggGet gg (·.pageCount)) "goodreads"
    format := choose_survivor g.format (ggGet gg (·.format)) "goodreads"
    description := choose_survivor g.desc (ggGet gg (·.description)) "goodreads"
    rating_value := g.rating_value
    rating_count := g.rating_count
    price_amount := price_amt
    price_currency := price_cur
    source_preference := pref
    most_complete_url := url_pref
    ingestion_date_goodreads := g.ingestion_date
    ingestion_date_google := ggGet gg (·.ingestion_date) }

/-- A Python dict over string keys, observed through lookup (the pipeline
never iterates an index). -/
def PyDict := String → Option GoogleRecord

/-- The empty dict. -/
def dictEmpty : PyDict := fun _ => none

/-- Plain assignment `d[k] = v`: a later duplicate key overwrites. -/
def dictAssign (d : PyDict) (k : String) (v : GoogleRecord) : PyDict :=
  fun k' => if k' = k then some v else d k'

/-- Python `d.setdefault(k, v)`: an existing binding is kept. -/
def dictSetdefault (d : PyDict) (k : String) (v : GoogleRecord) : PyDict :=
  fun k' =>
    if k' = k then (match d k with | some w => some w | none => some v) else d k'

/-- The three lookup indexes over the secondary collection. -/
structure Indexes where
  by_gbid : PyDict
  by_isbn13 : PyDict
  by_key : PyDict

/-- One iteration of the index-building loop of `run_pipeline`:
`google_by_gbid` and `google_by_isbn13` use plain assignment,
`google_by_key` uses `setdefault`. -/
def indexStep (acc : Indexes) (r : GoogleRecord) : Indexes :=
  let byId := if r.gb_id.truthy then dictAssign acc.by_gbid (pyStr r.gb_id) r else acc.by_gbid
  let isbn := normalize_str r.isbn13
  let byIsbn := if optSTruthy isbn then dictAssign acc.by_isbn13 (isbn.getD "") r
    else acc.by_isbn13
  let tnorm := normalize_title r.title
  let afirst := get_first_author r.authors
  let byKey := if optSTruthy tnorm && afirst ≠ "" then
    dictSetdefault acc.by_key ((tnorm.getD "") ++ "||" ++ afirst) r else acc.by_key
  { by_gbid := byId, by_isbn13 := byIsbn, by_key := byKey }

/-- Index construction over the secondary collection, in input order. -/
def buildIndexes (recs : List GoogleRecord) : Indexes :=
  recs.foldl indexStep { by_gbid := dictEmpty, by_isbn13 := dictEmpty, by_key := dictEmpty }

/-- The `gid = str(g.get("id")) if g.get("id") is not None else ""` binding. -/
def pyGid (g : GoodRecord) : String := if g.id ≠ .pnone then pyStr g.id else ""

/-- The matching cascade of `run_pipeline`: identifier, then ISBN-13 with
the legacy `isbn` fallback, then normalised title plus first author, then
no match. -/
def matchRecord (g : GoodRecord) (idx : Indexes) : Option GoogleRecord × String :=
  let gid := pyGid g
  if gid ≠ "" && (idx.by_gbid gid).isSome then (idx.by_gbid gid, "id")
  else
    let isbn := normalize_str (pyOr g.isbn13 g.isbn)
    if optSTruthy isbn && (idx.by_isbn13 (isbn.getD "")).isSome then
      (idx.by_isbn13 (isbn.getD ""), "isbn")
    else
      let tnorm := normalize_title g.title
      let afirst := get_first_author g.authors
      if optSTruthy tnorm && afirst ≠ "" &&
         (idx.by_key ((tnorm.getD "") ++ "||" ++ afirst)).isSome then
        (idx.by_key ((tnorm.getD "") ++ "||" ++ afirst), "heuristic")
      else (none, "none")

/-- pandas `notnull` of one cell: `None` and NaN are null. -/
def notnullV (v : Val) : Bool := v ≠ .pnone && v ≠ .pnan

/-- The `_score` column: `df_final.notnull().sum(axis=1)` over the
twenty-three columns (`canonical_id` and `source_preference` are always
non-null strings). -/
def Merged.score (m : Merged) : Nat :=
  [true, notnullV m.isbn13, notnullV m.isbn10, notnullV m.title, notnullV m.title_normalized,
   notnullV m.authors, notnullV m.first_author, notnullV m.publisher, notnullV m.pub_date,
   notnullV m.pub_year, notnullV m.language, notnullV m.categories, notnullV m.num_pages,
   notnullV m.format, notnullV m.description, notnullV m.rating_value, notnullV m.rating_count,
   notnullV m.price_amount, notnullV m.price_currency, true, notnullV m.most_complete_url,
   notnullV m.ingestion_date_goodreads, notnullV m.ingestion_date_google].count true

/-- A total order on the indexed rows: score descending, ties by original
input position. `sort_values("_score", ascending=False)` with the default
`kind="quicksort"` guarantees only the score-descending part; its tie order
is an implementation detail of numpy's unstable introsort, which coincides
with this order only for frames below numpy's insertion-sort cutoff (there
pandas' `nargsort` reverses the array, argsorts stably, and reverses the
result, leaving tied rows in input order). The model fixes this one
admissible tie order; no theorem below about `dedup` depends on how ties
are broken. -/
def dedupLe (p q : Nat × Merged) : Prop :=
  q.2.score < p.2.score ∨ (p.2.score = q.2.score ∧ p.1 ≤ q.1)

instance : DecidableRel dedupLe := fun p q => by
  unfold dedupLe; infer_instance

instance : IsTotal (Nat × Merged) dedupLe :=
  ⟨fun p q => by
    unfold dedupLe
    rcases Nat.lt_trichotomy p.2.score q.2.score with h | h | h
    · exact .inr (.inl h)
    · rcases Nat.le_total p.1 q.1 with h' | h'
      · exact .inl (.inr ⟨h, h'⟩)
      · exact .inr (.inr ⟨h.symm, h'⟩)
    · exact .inl (.inl h)⟩

instance : IsTrans (Nat × Merged) dedupLe :=
  ⟨fun p q s hpq hqs => by
    unfold dedupLe at *
    rcases hpq with h | ⟨h1, h2⟩ <;> rcases hqs with h' | ⟨h1', h2'⟩
    · exact .inl (h'.trans h)
    · exact .inl (h1' ▸ h)
    · exact .inl (h1 ▸ h')
    · exact .inr ⟨h1.trans h1', h2.trans h2'⟩⟩

/-- `drop_duplicates(subset=["canonical_id"], keep="first")` on the sorted
rows: keep each row whose `canonical_id` has not been seen yet. -/
def keepFirstByCid : List (Nat × Merged) → List String → List (Nat × Merged)
  | [], _ => []
  | p :: ps, seen =>
    if p.2.canonical_id ∈ seen then keepFirstByCid ps seen
    else p :: keepFirstByCid ps (p.2.canonical_id :: seen)

/-- The deduplication block of `run_pipeline` on indexed rows: score, sort
by score descending (with the modelled tie order of `dedupLe`), drop
duplicate canonical ids keeping the first row in sorted order. -/
def dedupIdx (rows : List Merged) : List (Nat × Merged) :=
  keepFirstByCid (List.insertionSort dedupLe rows.enum) []

/-- The deduplicated canonical record list (the `_score` helper column is
dropped again in the source). -/
def dedup (rows : List Merged) : List Merged := (dedupIdx rows).map (·.2)

/-- One audit row of `book_source_detail`. -/
structure Detail where
  canonical_id : String
  gb_id : String
  from_google : Bool
  merge_method : String
  timestamp : String
deriving DecidableEq

/-- The two record collections `run_pipeline` hands to the persistence
collaborators (the metrics summary is derived reporting outside the claims
considered here). -/
structure PipelineOut where
  dim_book : List Merged
  detail : List Detail
deriving DecidableEq

/-- Source `run_pipeline` on in-memory collections: build the indexes, match
and merge each primary record, record the audit row, deduplicate. The run
timestamp `ts` is the value `now_ts()` produces, passed explicitly since it
is the only run-dependent input. -/
def run_pipeline (gr_recs : List GoodRecord) (gg_recs : List GoogleRecord)
    (ts : String) : PipelineOut :=
  let idx := buildIndexes gg_recs
  let merged_rows := gr_recs.map (fun g => merge_records g (matchRecord g idx).1)
  let detail_rows := gr_recs.map (fun g =>
    let mm := matchRecord g idx
    { canonical_id := (merge_records g mm.1).canonical_id
      gb_id := pyGid g
      from_google := mm.1.isSome
      merge_method := mm.2
      timestamp := ts : Detail })
  { dim_book := dedup merged_rows, detail := detail_rows }

set_option maxRecDepth 100000

/-- The primary record of the specification's identity-fallback example. -/
def exC3 : GoodRecord :=
  { title := .pstr "The Book", authors := .vlist [.pstr "A B"],
    publisher := .pstr "Pub", pub_date := .pstr "1999" }

/-- A primary record carrying only an ISBN-13. -/
def exId : GoodRecord := { isbn13 := .pstr "9781234567897" }

/-- The primary record of the null-date survivorship example. -/
def exG5 : GoodRecord := { pub_date := .pnone }

/-- The matched secondary record of the null-date survivorship example. -/
def exGG5 : GoogleRecord := { pub_date := .pstr "2020-05-01" }

/-- A primary record with a parseable price. -/
def exG7 : GoodRecord := { price_amount := .pstr "5" }

/-- A secondary record whose price parses to zero. -/
def exGG7 : GoogleRecord := { price_amount := .pstr "0" }

/-- A primary record for the matching-priority example. -/
def exG2 : GoodRecord :=
  { id := .pstr "42", isbn13 := .pstr "9780000000001",
    title := .pstr "X", authors := .vlist [.pstr "A"] }

/-- Secondary record matching `exG2` by identifier. -/
def ggA : GoogleRecord := { gb_id := .pstr "42", title := .pstr "AAA" }

/-- Secondary record matching `exG2` by ISBN-13. -/
def ggB : GoogleRecord := { isbn13 := .pstr "9780000000001", title := .pstr "BBB" }

/-- Secondary record matching `exG2` by the heuristic key. -/
def ggC : GoogleRecord := { title := .pstr "X", authors := .vlist [.pstr "A"] }

/-- Two secondary records sharing the identifier `G1`. -/
def cg1 : GoogleRecord := { gb_id := .pstr "G1", title := .pstr "T1" }

/-- The later duplicate of `cg1`. -/
def cg2 : GoogleRecord := { gb_id := .pstr "G1", title := .pstr "T2" }

/-- Two secondary records sharing the same normalised ISBN-13. -/
def ci1 : GoogleRecord := { isbn13 := .pstr "9780000000002", title := .pstr "I1" }

/-- The later duplicate of `ci1`. -/
def ci2 : GoogleRecord := { isbn13 := .pstr "9780000000002", title := .pstr "I2" }

/-- Two secondary records sharing the same heuristic title/author key. -/
def ck1 : GoogleRecord := { title := .pstr "Same", authors := .pstr "Auth", pub_date := .pstr "2001" }

/-- The later duplicate of `ck1`. -/
def ck2 : GoogleRecord := { title := .pstr "Same", authors := .pstr "Auth", pub_date := .pstr "2002" }

/-- An unmatched primary record with only a price and a url. -/
def exG10 : GoodRecord := { id := .pstr "77", price_amount := .pstr "7.5", url := .pstr "u10" }

theorem keepFirst_not_seen {p : Nat × Merged} :
    ∀ (l : List (Nat × Merged)) (seen : List String),
      p ∈ keepFirstByCid l seen → p.2.canonical_id ∉ seen
  | [], _, h => by simp [keepFirstByCid] at h
  | x :: xs, seen, h => by
    by_cases hc : x.2.canonical_id ∈ seen
    · simp only [keepFirstByCid, if_pos hc] at h
      exact keepFirst_not_seen xs seen h
    · simp only [keepFirstByCid, if_neg hc, List.mem_cons] at h
      rcases h with h | h
      · exact h ▸ hc
      · have := keepFirst_not_seen xs _ h
        exact fun hmem => this (List.mem_cons_of_mem _ hmem)

theorem keepFirst_nodup :
    ∀ (l : List (Nat × Merged)) (seen : List String),
      (keepFirstByCid l seen).Pairwise
        (fun a b => a.2.canonical_id ≠ b.2.canonical_id)
  | [], _ => by simp [keepFirstByCid]
  | x :: xs, seen => by
    by_cases hc : x.2.canonical_id ∈ seen
    · simp only [keepFirstByCid, if_pos hc]
      exact keepFirst_nodup xs seen
    · simp only [keepFirstByCid, if_neg hc]
      refine List.pairwise_cons.mpr ⟨fun y hy => ?_, keepFirst_nodup xs _⟩
      have := keepFirst_not_seen xs _ hy
      exact fun he => this (he ▸ List.mem_cons_self _ _)

/-- C8: in the final deduplicated output of every run, canonical ids are
pairwise distinct. -/
theorem output_canonical_id_unique (gr_recs : List GoodRecord)
    (gg_recs : List GoogleRecord) (ts : String) :
    (run_pipeline gr_recs gg_recs ts).dim_book.Pairwise
      (fun a b => a.canonical_id ≠ b.canonical_id) :=
  (List.pairwise_map).mpr (keepFirst_nodup _ [])

/-- C1: the canonical record list and the timestamp-free audit columns are
functions of the two input collections alone; two runs over identical
inputs (differing only in the run timestamp) agree exactly. -/
theorem engine_determinism (gr_recs : List GoodRecord) (gg_recs : List GoogleRecord)
    (ts1 ts2 : String) :
    (run_pipeline gr_recs gg_recs ts1).dim_book =
      (run_pipeline gr_recs gg_recs ts2).dim_book ∧
    (run_pipeline gr_recs gg_recs ts1).detail.map
        (fun d => (d.canonical_id, d.gb_id, d.from_google, d.merge_method)) =
      (run_pipeline gr_recs gg_recs ts2).detail.map
        (fun d => (d.canonical_id, d.gb_id, d.from_google, d.merge_method)) := by
  constructor
  · rfl
  · simp only [run_pipeline, List.map_map]
    rfl

theorem collapseWsChars_ne_nil (c : Char) (cs : List Char) : collapseWsChars (c :: cs) ≠ [] := by
  simp only [collapseWsChars, List.length_cons, collapseWsAux]
  split <;> simp

theorem collapseWs_ne_empty {t : String} (h : t ≠ "") : collapseWs t ≠ "" := by
  rcases t with ⟨l⟩
  cases l with
  | nil => exact absurd rfl h
  | cons c cs =>
    intro he
    exact collapseWsChars_ne_nil c cs (by simpa [collapseWs] using congrArg String.data he)

theorem normStrCore_ne_empty {t s : String} (h : normalize_str_core t = some s) : s ≠ "" := by
  simp only [normalize_str_core] at h
  split at h
  · exact absurd h (by simp)
  · next hcond =>
    have hne : pyStrip t ≠ "" := by
      intro he
      exact hcond (by simp [he])
    split at h
    · next rest hrev =>
      split at h
      · next hdig =>
        simp only [Option.some.injEq] at h
        subst h
        refine collapseWs_ne_empty ?_
        simp only [pyIsDigit, Bool.and_eq_true, decide_eq_true_eq] at hdig
        intro he
        exact hdig.1 (by simpa using congrArg String.data he)
      · simp only [Option.some.injEq] at h
        exact h ▸ collapseWs_ne_empty hne
    · simp only [Option.some.injEq] at h
      exact h ▸ collapseWs_ne_empty hne

theorem normStr_ne_empty : ∀ {v : Val} {s : String}, normalize_str v = some s → s ≠ "" := by
  intro v s h
  cases v <;> simp only [normalize_str] at h <;>
    first
      | exact absurd h (by simp)
      | exact normStrCore_ne_empty h

/-- C2: when a primary record's identifier, ISBN-13 key and title/author
key all have matches in the secondary indexes, the matcher returns the
id-matched candidate and the audit ledger reports `merge_method = "id"`. -/
theorem matching_priority (g : GoodRecord) (recs : List GoogleRecord)
    (r1 r2 r3 : GoogleRecord)
    (hid : pyGid g ≠ "")
    (h1 : (buildIndexes recs).by_gbid (pyGid g) = some r1)
    (h2 : (buildIndexes recs).by_isbn13
        ((normalize_str (pyOr g.isbn13 g.isbn)).getD "") = some r2)
    (h3 : (buildIndexes recs).by_key
        (((normalize_title g.title).getD "") ++ "||" ++ get_first_author g.authors) = some r3) :
    matchRecord g (buildIndexes recs) = (some r1, "id") ∧
    ∀ ts, (run_pipeline [g] recs ts).detail.map (·.merge_method) = ["id"] := by
  have hm : matchRecord g (buildIndexes recs) = (some r1, "id") := by
    simp [matchRecord, h1, hid]
  exact ⟨hm, fun ts => by simp [run_pipeline, hm]⟩

/-- Witness for `matching_priority`: a primary record whose id, ISBN-13 and
heuristic key each match a distinct secondary record. -/
theorem matching_priority_witness :
    pyGid exG2 ≠ "" ∧
    (buildIndexes [ggA, ggB, ggC]).by_gbid (pyGid exG2) = some ggA ∧
    (buildIndexes [ggA, ggB, ggC]).by_isbn13
      ((normalize_str (pyOr exG2.isbn13 exG2.isbn)).getD "") = some ggB ∧
    (buildIndexes [ggA, ggB, ggC]).by_key
      (((normalize_title exG2.title).getD "") ++ "||" ++ get_first_author exG2.authors) = some ggC ∧
    matchRecord exG2 (buildIndexes [ggA, ggB, ggC]) = (some ggA, "id") ∧
    (run_pipeline [exG2] [ggA, ggB, ggC] "t0").detail.map (·.merge_method) = ["id"] :=
  ⟨by decide, by decide, by decide, by decide,
   (matching_priority exG2 [ggA, ggB, ggC] ggA ggB ggC
      (by decide) (by decide) (by decide) (by decide)).1,
   (matching_priority exG2 [ggA, ggB, ggC] ggA ggB ggC
      (by decide) (by decide) (by decide) (by decide)).2 "t0"⟩

theorem oToVal_none : oToVal none = Val.pnone := rfl

theorem valOrEmptyStr_oToVal (o : Option String) : valOrEmptyStr (oToVal o) = o.getD "" := by
  cases o with
  | none => rfl
  | some s =>
    by_cases h : s = "" <;> simp [valOrEmptyStr, oToVal, Val.truthy, pyStr, h]

/-- C3: the merged record's canonical id is the normalised ISBN-13 when one
is present (primary first, then secondary), and otherwise the SHA-1 stable
hash of normalised title, first author, publisher and year joined with
`||`, nulls as empty strings; on the specification's example record the id
equals the hash of ("the book", "A B", "Pub", "1999"). -/
theorem identity_resolution (g : GoodRecord) (gg : Option GoogleRecord) :
    (∀ s, normalize_str g.isbn13 = some s → (merge_records g gg).canonical_id = s) ∧
    (normalize_str g.isbn13 = none →
      ∀ s, (match gg with | some r => normalize_str r.isbn13 | none => none) = some s →
      (merge_records g gg).canonical_id = s) ∧
    (normalize_str g.isbn13 = none →
      (match gg with | some r => normalize_str r.isbn13 | none => none) = none →
      (merge_records g gg).canonical_id =
        stable_hash_id [valOrEmptyStr (merge_records g gg).title_normalized,
          valOrEmptyStr (merge_records g gg).first_author,
          valOrEmptyStr (merge_records g gg).publisher,
          valOrEmptyStr (merge_records g gg).pub_year]) ∧
    (merge_records exC3 none).canonical_id = stable_hash_id ["the book", "A B", "Pub", "1999"] ∧
    stable_hash_id ["the book", "A B", "Pub", "1999"] =
      "84fce7ddd44e417a772b37ab0d9f989d9625f63b" := by
  refine ⟨?_, ?_, ?_, by decide, by decide⟩
  · intro s hs
    have hne := normStr_ne_empty hs
    simp [merge_records, hs, oToVal, pyOr, Val.truthy, hne, pyStr]
  · intro hgn s hs
    cases gg with
    | none => exact absurd hs (by simp)
    | some r =>
      simp only at hs
      have hne := normStr_ne_empty hs
      simp [merge_records, hgn, hs, oToVal, pyOr, Val.truthy, hne, pyStr]
  · intro hgn hggn
    cases gg with
    | none =>
      simp [merge_records, hgn, oToVal_none, pyOr, Val.truthy, valOrEmptyStr_oToVal]
    | some r =>
      simp only at hggn
      simp [merge_records, hgn, hggn, oToVal_none, pyOr, Val.truthy, valOrEmptyStr_oToVal]

/-- Witness for `identity_resolution`: a primary record carrying an
ISBN-13 receives it as canonical id. -/
theorem identity_resolution_witness :
    normalize_str exId.isbn13 = some "9781234567897" ∧
    (merge_records exId none).canonical_id = "9781234567897" :=
  ⟨by decide, (identity_resolution exId none).1 "9781234567897" (by decide)⟩

/-- The records eligible for `google_by_gbid` under key `k`. -/
def keyedById (k : String) (r : GoogleRecord) : Bool :=
  r.gb_id.truthy && decide (pyStr r.gb_id = k)

/-- The records eligible for `google_by_isbn13` under key `k`. -/
def keyedByIsbn (k : String) (r : GoogleRecord) : Bool :=
  optSTruthy (normalize_str r.isbn13) && decide ((normalize_str r.isbn13).getD "" = k)

/-- The records eligible for `google_by_key` under key `k`. -/
def keyedByTA (k : String) (r : GoogleRecord) : Bool :=
  optSTruthy (normalize_title r.title) && decide (get_first_author r.authors ≠ "") &&
    decide ((normalize_title r.title).getD "" ++ "||" ++ get_first_author r.authors = k)

theorem indexStep_by_gbid (acc : Indexes) (r : GoogleRecord) (k : String) :
    (indexStep acc r).by_gbid k =
      if keyedById k r then some r else acc.by_gbid k := by
  simp only [indexStep, keyedById]
  by_cases ht : r.gb_id.truthy
  · by_cases hk : pyStr r.gb_id = k
    · simp [ht, hk, dictAssign]
    · have hk' : ¬ (k = pyStr r.gb_id) := fun h => hk h.symm
      simp [ht, hk, hk', dictAssign]
  · simp [ht]

theorem indexStep_by_isbn13 (acc : Indexes) (r : GoogleRecord) (k : String) :
    (indexStep acc r).by_isbn13 k =
      if keyedByIsbn k r then some r else acc.by_isbn13 k := by
  simp only [indexStep, keyedByIsbn]
  by_cases ht : optSTruthy (normalize_str r.isbn13)
  · by_cases hk : (normalize_str r.isbn13).getD "" = k
    · simp [ht, hk, dictAssign]
    · have hk' : ¬ (k = (normalize_str r.isbn13).getD "") := fun h => hk h.symm
      simp [ht, hk, hk', dictAssign]
  · simp [ht]

theorem indexStep_by_key (acc : Indexes) (r : GoogleRecord) (k : String) :
    (indexStep acc r).by_key k =
      if keyedByTA k r then (acc.by_key k).or (some r) else acc.by_key k := by
  simp only [indexStep, keyedByTA]
  by_cases ht : optSTruthy (normalize_title r.title)
  · by_cases ha : get_first_author r.authors = ""
    · simp [ht, ha]
    · by_cases hk : (normalize_title r.title).getD "" ++ "||" ++ get_first_author r.authors = k
      · subst hk
        simp only [ht, ha, dictSetdefault, if_false, ite_false]
        cases hacc : acc.by_key ((normalize_title r.title).getD "" ++ "||" ++
            get_first_author r.authors) <;> simp [hacc, Option.or, ha, ht, dictSetdefault]
      · have hk' : ¬ (k = (normalize_title r.title).getD "" ++ "||" ++ get_first_author r.authors) :=
          fun h => hk h.symm
        simp [ht, ha, hk, hk', dictSetdefault]
  · simp [ht]

theorem getLast?_or_form {α : Type} : ∀ (a : α) (l : List α),
    (a :: l).getLast? = l.getLast?.or (some a)
  | _, [] => rfl
  | a, b :: bs => by
    rw [List.getLast?_cons_cons, getLast?_or_form b bs]
    cases h : bs.getLast? <;> simp [Option.or]

theorem foldl_by_gbid (recs : List GoogleRecord) (acc : Indexes) (k : String) :
    (recs.foldl indexStep acc).by_gbid k =
      ((recs.filter (keyedById k)).getLast?).or (acc.by_gbid k) := by
  induction recs generalizing acc with
  | nil => simp
  | cons r rs ih =>
    rw [List.foldl_cons, ih (indexStep acc r), List.filter_cons]
    by_cases h : keyedById k r
    · rw [if_pos h, getLast?_or_form, Option.or_assoc]
      congr 1
      simp [indexStep_by_gbid, h, Option.or]
    · rw [if_neg h]
      congr 1
      simp [indexStep_by_gbid, h]

theorem foldl_by_isbn13 (recs : List GoogleRecord) (acc : Indexes) (k : String) :
    (recs.foldl indexStep acc).by_isbn13 k =
      ((recs.filter (keyedByIsbn k)).getLast?).or (acc.by_isbn13 k) := by
  induction recs generalizing acc with
  | nil => simp
  | cons r rs ih =>
    rw [List.foldl_cons, ih (indexStep acc r), List.filter_cons]
    by_cases h : keyedByIsbn k r
    · rw [if_pos h, getLast?_or_form, Option.or_assoc]
      congr 1
      simp [indexStep_by_isbn13, h, Option.or]
    · rw [if_neg h]
      congr 1
      simp [indexStep_by_isbn13, h]

theorem foldl_by_key (recs : List GoogleRecord) (acc : Indexes) (k : String) :
    (recs.foldl indexStep acc).by_key k =
      (acc.by_key k).or ((recs.filter (keyedByTA k)).head?) := by
  induction recs generalizing acc with
  | nil => simp
  | cons r rs ih =>
    rw [List.foldl_cons, ih (indexStep acc r), List.filter_cons]
    by_cases h : keyedByTA k r
    · rw [if_pos h]
      rw [indexStep_by_key, if_pos h]
      rw [Option.or_assoc]
      congr 1
    · rw [if_neg h]
      rw [indexStep_by_key, if_neg h]

/-- C6 counterexample: two secondary records share identifier `G1`; the
earliest is `cg1`, yet `byId` maps `G1` to the later `cg2` (and likewise
for ISBN-13), contradicting first-write-wins; only the title/author index
keeps the earliest record. -/
theorem index_first_write_counterexample :
    cg1.gb_id = .pstr "G1" ∧ cg2.gb_id = .pstr "G1" ∧ cg1 ≠ cg2 ∧
    (buildIndexes [cg1, cg2]).by_gbid "G1" = some cg2 ∧
    (buildIndexes [cg1, cg2]).by_gbid "G1" ≠ some cg1 ∧
    normalize_str ci1.isbn13 = some "9780000000002" ∧
    normalize_str ci2.isbn13 = some "9780000000002" ∧ ci1 ≠ ci2 ∧
    (buildIndexes [ci1, ci2]).by_isbn13 "9780000000002" = some ci2 ∧
    (buildIndexes [ck1, ck2]).by_key "same||Auth" = some ck1 := by decide

/-- C6 amended: index construction is first-write-wins only for the
title/author key index (`setdefault`); the identifier and ISBN-13 indexes
use plain dict assignment, so each key maps to the latest eligible record
in input order (a later duplicate silently overwrites). -/
theorem index_write_policy (recs : List GoogleRecord) (k : String) :
    (buildIndexes recs).by_gbid k = (recs.filter (keyedById k)).getLast? ∧
    (buildIndexes recs).by_isbn13 k = (recs.filter (keyedByIsbn k)).getLast? ∧
    (buildIndexes recs).by_key k = (recs.filter (keyedByTA k)).head? := by
  refine ⟨?_, ?_, ?_⟩
  · rw [buildIndexes, foldl_by_gbid]
    cases h : (recs.filter (keyedById k)).getLast? <;> simp [h, dictEmpty, Option.or]
  · rw [buildIndexes, foldl_by_isbn13]
    cases h : (recs.filter (keyedByIsbn k)).getLast? <;> simp [h, dictEmpty, Option.or]
  · rw [buildIndexes, foldl_by_key]
    simp [dictEmpty, Option.or]

/-- C5: on the specification's failing input the code collapses the
secondary's full date `2020-05-01` to month precision `2020-05`, because
the parsed day 1 is indistinguishable from the dateutil placeholder
default, while a day other than 1 keeps full precision. -/
theorem survivorship_null_date_code_behaviour :
    iso_date (.pstr "2020-05-01") = some "2020-05" ∧
    iso_date (.pstr "2020-05-15") = some "2020-05-15" ∧
    (merge_records exG5 (some exGG5)).pub_date = .pstr "2020-05" ∧
    (merge_records exG5 (some exGG5)).pub_date ≠ .pstr "2020-05-01" := by decide

/-- C7 counterexample: the secondary record carries the parsed price `0.0`,
yet the merged price is the primary's `5.0`, because Python's `or` treats
`0.0` as falsy. -/
theorem price_survivorship_counterexample :
    safe_decimal exGG7.price_amount = some { man := 0, exp := 0 } ∧
    safe_decimal exG7.price_amount = some { man := 5, exp := 0 } ∧
    (merge_records exG7 (some exGG7)).price_amount = .pfloat { man := 5, exp := 0 } ∧
    (merge_records exG7 (some exGG7)).price_amount ≠ .pfloat { man := 0, exp := 0 } := by
  decide

/-- C7 amended: the merged price takes the secondary's parsed price only
when it is truthy (non-null and nonzero), falling back to the primary's
parsed price when the secondary price is absent, unparseable or zero; the
currency falls back likewise when the secondary's normalised currency is
null or the empty string. -/
theorem price_survivorship_amended (g : GoodRecord) (gg : GoogleRecord) :
    (∀ q, safe_decimal gg.price_amount = some q → q.man ≠ 0 →
      (merge_records g (some gg)).price_amount = .pfloat q) ∧
    ((safe_decimal gg.price_amount = none ∨
        safe_decimal gg.price_amount = some { man := 0, exp := 0 }) →
      (merge_records g (some gg)).price_amount = oQToVal (safe_decimal g.price_amount)) ∧
    (merge_records g none).price_amount = oQToVal (safe_decimal g.price_amount) ∧
    (∀ s, normalize_currency gg.price_currency = some s → s ≠ "" →
      (merge_records g (some gg)).price_currency = .pstr s) ∧
    ((normalize_currency gg.price_currency = none ∨
        normalize_currency gg.price_currency = some "") →
      (merge_records g (some gg)).price_currency = oToVal (normalize_currency g.price_currency)) := by
  refine ⟨?_, ?_, ?_, ?_, ?_⟩
  · intro q hq hne
    simp [merge_records, ggGet, hq, oQToVal, pyOr, Val.truthy, hne]
  · rintro (h | h) <;> simp [merge_records, ggGet, h, oQToVal, pyOr, Val.truthy]
  · have hp : safe_decimal Val.pnone = none := rfl
    simp [merge_records, ggGet, hp, oQToVal, pyOr, Val.truthy]
  · intro s hs hne
    simp [merge_records, ggGet, hs, oToVal, pyOr, Val.truthy, hne, pyStr]
  · rintro (h | h) <;> simp [merge_records, ggGet, h, oToVal, pyOr, Val.truthy]

/-- A secondary record with a truthy price and currency, for the price
survivorship witness. -/
def exGW : GoogleRecord := { price_amount := .pstr "9.9", price_currency := .pstr "usd" }

/-- Witness for `price_survivorship_amended` at a nonzero secondary price. -/
theorem price_survivorship_amended_witness :
    safe_decimal exGW.price_amount = some { man := 99, exp := 1 } ∧
    ({ man := 99, exp := 1 } : Dec).man ≠ 0 ∧
    (merge_records exG7 (some exGW)).price_amount = .pfloat { man := 99, exp := 1 } :=
  ⟨by decide, by decide,
   (price_survivorship_amended exG7 exGW).1 { man := 99, exp := 1 } (by decide) (by decide)⟩

theorem strApp_ne_empty_left {a : String} (b : String) (h : a ≠ "") : a ++ b ≠ "" := by
  intro he
  have hd := congrArg String.data he
  rw [String.data_append a b] at hd
  rcases List.append_eq_nil.mp hd with ⟨h1, _⟩
  apply h
  cases a with
  | mk l => exact congrArg String.mk h1

theorem keepTruthy_ne_empty {o : Option String} {a : String}
    (h : keepTruthy o = some a) : a ≠ "" := by
  cases o with
  | none => exact absurd h (by simp [keepTruthy])
  | some s =>
    by_cases hs : s = ""
    · simp [keepTruthy, hs] at h
    · simp only [keepTruthy, hs, if_neg, Option.some.injEq, if_false, ite_false] at h
      simpa [← h] using hs

theorem pad4_ne_empty (y : Nat) : pad4 y ≠ "" := by
  unfold pad4
  intro he
  have hd := congrArg String.data he
  rw [String.data_append] at hd
  rcases List.append_eq_nil.mp hd with ⟨h1, h2⟩
  simp only [List.replicate_eq_nil_iff] at h1
  have hlen : (toString y).length = 0 := by
    have h3 : (toString y).data.length = 0 := by rw [h2]; rfl
    exact h3
  omega

theorem takeDigits4_ne_nil {l y4 rest} (h : takeDigits4 l = some (y4, rest)) : y4 ≠ [] := by
  unfold takeDigits4 at h
  split at h
  · split at h
    · simp only [Option.some.injEq, Prod.mk.injEq] at h
      rcases h with ⟨h1, _⟩
      subst h1
      simp
    · exact absurd h (by simp)
  · exact absurd h (by simp)

theorem isoRegex_ne_empty {s t : String} (h : isoRegexFallback s = some t) : t ≠ "" := by
  unfold isoRegexFallback at h
  split at h
  · exact absurd h (by simp)
  · next y4 rest hq =>
    have hg1 : String.mk y4 ≠ "" := by
      intro he
      exact takeDigits4_ne_nil hq (by simpa using congrArg String.data he)
    split at h
    · split at h
      · split at h
        · simp only [Option.some.injEq] at h
          exact h ▸ strApp_ne_empty_left _ (strApp_ne_empty_left _
            (strApp_ne_empty_left _ (strApp_ne_empty_left _ hg1)))
        · split at h
          · simp only [Option.some.injEq] at h
            exact h ▸ strApp_ne_empty_left _ (strApp_ne_empty_left _ hg1)
          · simp only [Option.some.injEq] at h
            exact h ▸ hg1
      · split at h
        · simp only [Option.some.injEq] at h
          exact h ▸ strApp_ne_empty_left _ (strApp_ne_empty_left _ hg1)
        · simp only [Option.some.injEq] at h
          exact h ▸ hg1
    · simp only [Option.some.injEq] at h
      exact h ▸ hg1

theorem iso_date_ne_empty {v : Val} {s : String} (h : iso_date v = some s) : s ≠ "" := by
  unfold iso_date at h
  split at h
  · exact absurd h (by simp)
  · dsimp only at h
    split at h
    · exact absurd h (by simp)
    · split at h
      · split at h
        · simp only [Option.some.injEq] at h
          exact h ▸ strApp_ne_empty_left _ (strApp_ne_empty_left _
            (strApp_ne_empty_left _ (strApp_ne_empty_left _ (pad4_ne_empty _))))
        · split at h
          · simp only [Option.some.injEq] at h
            exact h ▸ strApp_ne_empty_left _ (strApp_ne_empty_left _ (pad4_ne_empty _))
          · simp only [Option.some.injEq] at h
            exact h ▸ pad4_ne_empty _
      · exact isoRegex_ne_empty h

theorem hex8_length (n : Nat) : (hex8 n).length = 8 := rfl


theorem stable_hash_id_length (fields : List String) : (stable_hash_id fields).length = 40 := by
  unfold stable_hash_id sha1Hex
  rcases hdig : sha1Digest (utf8Bytes (String.intercalate "||" fields)) with ⟨h0, h1, h2, h3, h4⟩
  show (hex8 h0 ++ hex8 h1 ++ hex8 h2 ++ hex8 h3 ++ hex8 h4).length = 40
  simp [hex8_length]

/-- C9: the normalisation layer is total and degrades: `normalize_str`,
`iso_date` return null or a nonempty string on every value, the author
list never contains empty entries, every normaliser maps null to its null
or empty result, NaN parses to null, and the stable hash is always a
40-character digest. -/
theorem normalizer_totality :
    (∀ v : Val, normalize_str v = none ∨ ∃ s, normalize_str v = some s ∧ s ≠ "") ∧
    (∀ v : Val, ∀ a ∈ normalize_author v, a ≠ "") ∧
    (∀ v : Val, iso_date v = none ∨ ∃ s, iso_date v = some s ∧ s ≠ "") ∧
    normalize_str .pnone = none ∧ normalize_title .pnone = none ∧
    normalize_author .pnone = [] ∧ normalize_categories .pnone = [] ∧
    iso_date .pnone = none ∧ normalize_currency .pnone = none ∧
    safe_decimal .pnone = none ∧ safe_decimal .pnan = none ∧
    (∀ fields : List String, (stable_hash_id fields).length = 40) := by
  refine ⟨?_, ?_, ?_, rfl, rfl, rfl, rfl, rfl, rfl, rfl, rfl, stable_hash_id_length⟩
  · intro v
    cases h : normalize_str v with
    | none => exact .inl rfl
    | some s => exact .inr ⟨s, rfl, normStr_ne_empty h⟩
  · intro v a ha
    unfold normalize_author at ha
    split at ha
    · exact absurd ha (List.not_mem_nil a)
    · split at ha <;>
        first
          | exact absurd ha (List.not_mem_nil a)
          | {
              rcases List.mem_filterMap.mp ha with ⟨x, _, hx⟩
              exact keepTruthy_ne_empty hx
            }
  · intro v
    cases h : iso_date v with
    | none => exact .inl rfl
    | some s => exact .inr ⟨s, rfl, iso_date_ne_empty h⟩

/-- C10: an unmatched primary record whose title, authors, publication
date and page count are all null but whose price parses to a nonzero
number is marked `source_preference = "google"`, while its
`most_complete_url` still comes from the primary record. -/
theorem unmatched_google_preference :
    exG10.title = .pnone ∧ exG10.authors = .pnone ∧ exG10.pub_date = .pnone ∧
    exG10.num_pages = .pnone ∧
    safe_decimal exG10.price_amount = some { man := 75, exp := 1 } ∧
    (run_pipeline [exG10] [] "t0").detail.map (fun d => (d.merge_method, d.from_google)) =
      [("none", false)] ∧
    (run_pipeline [exG10] [] "t0").dim_book.map
      (fun m => (m.source_preference, m.most_complete_url)) = [("google", Val.pstr "u10")] := by
  decide

/-- Witness for `normalizer_totality` at a concrete delimited author
string. -/
theorem normalizer_totality_witness :
    "Jane Doe" ∈ normalize_author (.pstr "Jane Doe, J. Smith") ∧ "Jane Doe" ≠ "" :=
  ⟨by decide,
   normalizer_totality.2.1 (.pstr "Jane Doe, J. Smith") "Jane Doe" (by decide)⟩
